import Mathlib

/-!
# Verification of the insider-trading extraction and momentum scripts

A shallow embedding of the Python scripts of the Insider-Trading-Investigation
repository (`Api_test.py`, `api_test_expanded_list.py`,
`deep_dive_into_return_post_insider_trade.py`, `return_post_insider_trading.py`),
together with theorems settling the specification's claims about them.

JSON objects become structures whose optional fields are `Option`s; Python
`dict.get` chains become `Option.bind` chains; the row-accumulating loops become
`foldl`s over explicit accumulator lists; fallible paths (HTTP errors, raised
exceptions) become `Except`; prices and share counts are `Rat`; timestamps are
integers (epoch days for the daily variant, epoch seconds for the hourly one),
with an optional UTC offset standing for `tzinfo`.
-/

set_option autoImplicit false

namespace InsiderTrading

/-! ## Exceptions raised by the Python runtime or libraries -/

/-- Python exceptions that the modelled code can raise. -/
inductive PyExc where
  | valueError (msg : String)
  | nameError (msg : String)
  | connectionError (msg : String)
  deriving Repr, DecidableEq

/-! ## Data model: the parsed filing-search response

Mirrors the JSON shapes read by `fetch_insider_trades` /
`fetch_insider_trades_enhanced`. Every field the Python reads with `.get`
is an `Option`; a `none` stands for an absent (or `null`) key. -/

/-- The `coding` cluster of a raw transaction. -/
structure Coding where
  code : Option String
  equitySwapInvolved : Option Bool
  deriving Repr, DecidableEq

/-- The `amounts` cluster of a raw transaction. -/
structure Amounts where
  shares : Option Rat
  pricePerShare : Option Rat
  deriving Repr, DecidableEq

/-- The `postTransactionAmounts` cluster of a raw transaction. -/
structure PostAmounts where
  sharesOwnedFollowingTransaction : Option Rat
  deriving Repr, DecidableEq

/-- One transaction entry of a filing's sub-table. -/
structure RawTransaction where
  securityTitle : Option String
  transactionDate : Option String
  coding : Option Coding
  amounts : Option Amounts
  postTransactionAmounts : Option PostAmounts
  deriving Repr, DecidableEq

/-- A `nonDerivativeTable` / `derivativeTable` object; its `transactions`
key may be absent or `null`. -/
structure SubTable where
  transactions : Option (List RawTransaction)
  deriving Repr, DecidableEq

/-- The `reportingOwner.relationship` object. -/
structure Relationship where
  officerTitle : Option String
  otherText : Option String
  deriving Repr, DecidableEq

/-- The `reportingOwner` object. -/
structure ReportingOwner where
  relationship : Option Relationship
  deriving Repr, DecidableEq

/-- The `issuer` object. -/
structure Issuer where
  tradingSymbol : Option String
  deriving Repr, DecidableEq

/-- One element of a filing's `footnotes` array. -/
structure Footnote where
  text : Option String
  deriving Repr, DecidableEq

/-- One filing group of the `transactions` array of a filing-search response. -/
structure FilingGroup where
  documentType : Option String
  footnotes : Option (List Footnote)
  remarks : Option String
  issuer : Option Issuer
  reportingOwner : Option ReportingOwner
  nonDerivativeTable : Option SubTable
  derivativeTable : Option SubTable
  deriving Repr, DecidableEq

/-- Python `grp.get(table_name, \x7b\x7d).get("transactions", []) or []`:
an absent table, an absent `transactions` key, and a `null` value all
yield the empty list. -/
def tableTxs : Option SubTable → List RawTransaction
  | none => []
  | some st => st.transactions.getD []

/-! ## Transaction-code vocabulary -/

/-- The `TRANSACTION_CODE_MEANINGS` constant: the fixed transaction-code mapping defined
at the top of `deep_dive_into_return_post_insider_trade.py` and
`return_post_insider_trading.py`. -/
def TRANSACTION_CODE_MEANINGS : List (String × String) :=
  [("P", "Purchase"), ("S", "Sale"), ("A", "Grant/Award"), ("D", "Disposition"),
   ("F", "Payment"), ("M", "Conversion/Exercise"), ("G", "Gift"), ("V", "Voluntary"),
   ("J", "Other"), ("K", "Equity Swap"), ("L", "Small Acquisition"), ("U", "Tender")]

/-- Python `TRANSACTION_CODE_MEANINGS.get(code, "Unknown")`, where `code` may be the
Python `None` (never a dictionary key, hence always "Unknown"). -/
def codeDesc : Option String → String
  | none => "Unknown"
  | some c => (((TRANSACTION_CODE_MEANINGS.find? (fun p => p.1 = c)).map Prod.snd).getD "Unknown")

/-! ## The simple Extractor (`fetch_insider_trades`) -/

/-- A row appended by `fetch_insider_trades` (the simple flattening of
`deep_dive_into_return_post_insider_trade.py` / `return_post_insider_trading.py`). -/
structure TransactionRecord where
  ticker : String
  transactionDate : Option String
  transactionCode : Option String
  transactionDesc : String
  shares : Option Rat
  pricePerShare : Option Rat
  officerTitle : Option String
  deriving Repr, DecidableEq

/-- Python `query.split(":")[-1]`: the trailing component after the last colon
(the whole string when there is no colon; `splitOn` never returns `[]`). -/
def lastColonComponent (q : String) : String :=
  (q.splitOn ":").getLastD q

/-- Python `grp.get("issuer", \x7b\x7d).get("tradingSymbol") or query.split(":")[-1]`:
Python `or` falls through on `None` and on the empty string. -/
def resolveSymbol (g : FilingGroup) (query : String) : String :=
  match g.issuer.bind (fun i => i.tradingSymbol) with
  | none => lastColonComponent query
  | some s => if s = "" then lastColonComponent query else s

/-- Python `grp.get("reportingOwner", \x7b\x7d).get("relationship", \x7b\x7d).get("officerTitle")`. -/
def officerTitleOf (g : FilingGroup) : Option String :=
  (g.reportingOwner.bind (fun o => o.relationship)).bind (fun r => r.officerTitle)

/-- The row dict built in the inner loop of `fetch_insider_trades`. -/
def recordOfTx (symbol : String) (officer : Option String) (tx : RawTransaction) :
    TransactionRecord :=
  let code := (tx.coding.getD ⟨none, none⟩).code
  { ticker := symbol
    transactionDate := tx.transactionDate
    transactionCode := code
    transactionDesc := codeDesc code
    shares := (tx.amounts.getD ⟨none, none⟩).shares
    pricePerShare := (tx.amounts.getD ⟨none, none⟩).pricePerShare
    officerTitle := officer }

/-- The rows contributed by one filing group, non-derivative table first,
then derivative table, each in server order (the
`for table in ("nonDerivativeTable", "derivativeTable")` loop). -/
def groupRows (query : String) (g : FilingGroup) : List TransactionRecord :=
  let symbol := resolveSymbol g query
  let officer := officerTitleOf g
  (tableTxs g.nonDerivativeTable).map (recordOfTx symbol officer) ++
    (tableTxs g.derivativeTable).map (recordOfTx symbol officer)

/-- The `rows`/`records` accumulator loop of `fetch_insider_trades`:
`for grp in transactions: ... rows.append(...)`, embedded as a fold that
appends each row to the accumulator. -/
def fetchRowsLoop (query : String) (transactions : List FilingGroup) : List TransactionRecord :=
  transactions.foldl
    (fun rows g =>
      let symbol := resolveSymbol g query
      let officer := officerTitleOf g
      (tableTxs g.derivativeTable).foldl
        (fun rows tx => rows ++ [recordOfTx symbol officer tx])
        ((tableTxs g.nonDerivativeTable).foldl
          (fun rows tx => rows ++ [recordOfTx symbol officer tx]) rows))
    []

/-! ## The enhanced Extractor (`fetch_insider_trades_enhanced`) -/

/-- A row appended by `fetch_insider_trades_enhanced`
(`Api_test.py` / `api_test_expanded_list.py`). -/
structure EnhancedRecord where
  documentType : Option String
  footnotes : String
  remarks : Option String
  officerTitle : Option String
  otherText : Option String
  transactionCategory : String
  securityTitle : Option String
  transactionDate : Option String
  transactionCode : Option String
  equitySwapInvolved : Option Bool
  shares : Option Rat
  pricePerShare : Option Rat
  sharesOwnedFollowingTransaction : Option Rat
  deriving Repr, DecidableEq

/-- Python `"; ".join([fn.get("text", "") for fn in footnotes_list])` over
`grp.get("footnotes", []) or []`. -/
def footnotesText (g : FilingGroup) : String :=
  String.intercalate "; " ((g.footnotes.getD []).map (fun fn => fn.text.getD ""))

/-- Python `rel = grp.get("reportingOwner", \x7b\x7d).get("relationship", \x7b\x7d) or \x7b\x7d`. -/
def relOf (g : FilingGroup) : Relationship :=
  (g.reportingOwner.bind (fun o => o.relationship)).getD ⟨none, none⟩

/-- The `extract(tx, category)` helper of `fetch_insider_trades_enhanced`:
absent `coding` / `amounts` / `postTransactionAmounts` clusters are replaced
by empty objects, so their scalar fields resolve to `none`. -/
def extract (g : FilingGroup) (tx : RawTransaction) (category : String) : EnhancedRecord :=
  let coding := tx.coding.getD ⟨none, none⟩
  let amounts := tx.amounts.getD ⟨none, none⟩
  let post := tx.postTransactionAmounts.getD ⟨none⟩
  { documentType := g.documentType
    footnotes := footnotesText g
    remarks := g.remarks
    officerTitle := (relOf g).officerTitle
    otherText := (relOf g).otherText
    transactionCategory := category
    securityTitle := tx.securityTitle
    transactionDate := tx.transactionDate
    transactionCode := coding.code
    equitySwapInvolved := coding.equitySwapInvolved
    shares := amounts.shares
    pricePerShare := amounts.pricePerShare
    sharesOwnedFollowingTransaction := post.sharesOwnedFollowingTransaction }

/-- The records contributed by one filing group in the enhanced extractor:
non-derivative transactions tagged "nonDerivative" first, then derivative
transactions tagged "derivative". -/
def groupRecords (g : FilingGroup) : List EnhancedRecord :=
  (tableTxs g.nonDerivativeTable).map (fun tx => extract g tx "nonDerivative") ++
    (tableTxs g.derivativeTable).map (fun tx => extract g tx "derivative")

/-- The `records` accumulator loop of `fetch_insider_trades_enhanced`. -/
def extractRecordsLoop (transactions : List FilingGroup) : List EnhancedRecord :=
  transactions.foldl
    (fun records g =>
      (tableTxs g.derivativeTable).foldl
        (fun records tx => records ++ [extract g tx "derivative"])
        ((tableTxs g.nonDerivativeTable).foldl
          (fun records tx => records ++ [extract g tx "nonDerivative"]) records))
    []

/-! ## The network wrapper around each extractor

The outcome of the `requests.post` round-trip: either the parsed response, an
HTTP error status with the response body bound (`raise_for_status` raised and
`resp` exists), or a transport error (`requests.post` itself raised, `resp`
was never bound). -/

/-- A filing-search response: the `transactions` array (`.get` defaults to `[]`
when the key is absent). -/
structure SearchResponse where
  transactions : List FilingGroup
  deriving Repr, DecidableEq

/-- Outcome of the `requests.post` call underlying a fetch. -/
inductive HttpOutcome where
  | success (resp : SearchResponse)
  | httpError (status : Nat) (body : String)
  | transportError (msg : String)
  deriving Repr, DecidableEq

/-- The `fetch_insider_trades` function of `deep_dive_into_return_post_insider_trade.py` /
`return_post_insider_trading.py`. On an HTTP status error the
`except Exception` handler prints and returns an empty frame. On a transport
error the handler runs with `resp` never assigned, so its
`getattr(resp, 'text', '')` raises `UnboundLocalError` (a `NameError`), which
the already-entered handler does not catch: it propagates to the caller. -/
def fetch_insider_trades (query : String) (outcome : HttpOutcome) :
    Except PyExc (List TransactionRecord) :=
  match outcome with
  | .success resp => .ok (fetchRowsLoop query resp.transactions)
  | .httpError _ _ => .ok []
  | .transportError _ =>
      .error (.nameError "cannot access local variable 'resp' where it is not associated with a value")

/-- The `fetch_insider_trades_enhanced` function of `Api_test.py`: the `requests.post` call
sits outside the `try`, whose `except requests.HTTPError` only covers
`raise_for_status`; a transport error therefore propagates to the caller. -/
def fetch_insider_trades_enhanced (query : String) (outcome : HttpOutcome) :
    Except PyExc (List EnhancedRecord) :=
  match outcome with
  | .success resp => .ok (extractRecordsLoop resp.transactions)
  | .httpError _ _ => .ok []
  | .transportError msg => .error (.connectionError msg)

/-! ## Credential startup checks -/

/-- Python `os.getenv(name, default)` over an environment modelled as a partial map. -/
def os_getenv (env : String → Option String) (name default : String) : String :=
  (env name).getD default

/-- Module top of `deep_dive_into_return_post_insider_trade.py`:
`API_KEY = os.getenv("API_KEY", "API_KEY")` followed by
`if not API_KEY: raise ValueError(...)`. A string is falsy exactly when
empty. Returns the key the script proceeds with, or the raised error. -/
def deep_dive_startup (env : String → Option String) : Except PyExc String :=
  let api_key := os_getenv env "API_KEY" "API_KEY"
  if api_key = "" then
    .error (.valueError "Please set your SEC_API_KEY environment variable to your real API key.")
  else
    .ok api_key

/-- The `__main__` guard of `api_test_expanded_list.py`:
`API_KEY = os.getenv("API_KEY", "API_KEY")` at module top, then
`if API_KEY == "YOUR_REAL_KEY_HERE": raise ValueError(...)`. -/
def expanded_list_startup (env : String → Option String) : Except PyExc String :=
  let api_key := os_getenv env "API_KEY" "API_KEY"
  if api_key = "YOUR_REAL_KEY_HERE" then
    .error (.valueError "Please set your SEC_API_KEY environment variable to your real API key.")
  else
    .ok api_key

/-- Module top of `return_post_insider_trading.py`:
`API_KEY = os.getenv("", "")` followed by `if not API_KEY: raise`. -/
def return_post_startup (env : String → Option String) : Except PyExc String :=
  let api_key := os_getenv env "" ""
  if api_key = "" then
    .error (.valueError "Please set your SEC_API_KEY environment variable to your real API key.")
  else
    .ok api_key

/-! ## Timestamps and timezone normalization -/

/-- A pandas timestamp: a wall-clock instant (in seconds for the hourly
variant, reinterpreted through `toEpochDay` for dates) plus an optional UTC
offset in minutes standing for `tzinfo` (`none` = timezone-naive). -/
structure PdTimestamp where
  wall : Int
  offsetMinutes : Option Int
  deriving Repr, DecidableEq

/-- Python `if ts.tzinfo is not None: ts = ts.tz_convert(None).tz_localize(None)`:
`tz_convert(None)` converts an aware timestamp to UTC and drops the timezone
(the subsequent `tz_localize(None)` on the now-naive value is a no-op), so an
offset of `m` minutes shifts the wall clock by `-m` minutes; a naive
timestamp is left unchanged. -/
def tz_normalize (t : PdTimestamp) : Int :=
  match t.offsetMinutes with
  | none => t.wall
  | some m => t.wall - m * 60

/-- Modelled from the spec: "any timezone offset present is discarded, not
converted-and-kept" — keep the wall-clock value and drop the offset. Stated
only to be compared with `tz_normalize`, the embedding of the code. -/
def specDiscardOffset (t : PdTimestamp) : Int :=
  t.wall

/-! ## The Momentum Analyzer, daily variant (`deep_dive_into_return_post_insider_trade.py`) -/

/-- One daily bar of the price-history collaborator: the date of the close
observation (`closes.index[k].date()`, as an epoch day) and the close. -/
structure PriceBar where
  date : Int
  close : Rat
  deriving Repr, DecidableEq

/-- The momentum fields added to one row by the daily analyzer; `none` is the
missing-value sentinel (`pd.NA` / `pd.NaT`). -/
structure DayFields where
  ret : Option Rat
  realizedDate : Option Int
  daysDiff : Option Int
  deriving Repr, DecidableEq

/-- The per-row branch of the daily `analyze_trade_momentum`:
`if len(closes) >= 1` compute return, realized date and day difference from
the first and last close, else set all three to the sentinel. -/
def analyzeRowDay (tradeDate : Int) (closes : List PriceBar) : DayFields :=
  match closes with
  | [] => { ret := none, realizedDate := none, daysDiff := none }
  | c :: cs =>
      let last := (c :: cs).getLast (List.cons_ne_nil c cs)
      { ret := some ((last.close - c.close) / c.close)
        realizedDate := some last.date
        daysDiff := some (last.date - tradeDate) }

/-- One output row of the daily analyzer: the input record (`row.to_dict()`)
updated with the momentum fields. -/
structure MomentumRowDay where
  base : TransactionRecord
  fields : DayFields
  deriving Repr, DecidableEq

/-- The close series used for one row of the daily analyzer:
`yf.Ticker(tkr).history(start, end)["Close"]` with the window end
`trade_date + pd.Timedelta(days=days_after)`; a raised exception is converted
by the `except` clause into an empty series. -/
def dayCloses (histFetch : String → Int → Int → Except String (List PriceBar))
    (days_after : Int) (ticker : String) (trade_date : Int) : List PriceBar :=
  match histFetch ticker trade_date (trade_date + days_after) with
  | .ok h => h
  | .error _ => []

/-- The daily `analyze_trade_momentum` loop: one result row is appended per
input row. `parseDate` stands for `pd.to_datetime(...).dt.date`. -/
def analyze_trade_momentum_day (parseDate : Option String → Int)
    (histFetch : String → Int → Int → Except String (List PriceBar))
    (days_after : Int) (df : List TransactionRecord) : List MomentumRowDay :=
  df.foldl
    (fun results row =>
      let trade_date := parseDate row.transactionDate
      let closes := dayCloses histFetch days_after row.ticker trade_date
      results ++ [{ base := row, fields := analyzeRowDay trade_date closes }])
    []

/-! ## The Momentum Analyzer, hourly variant (`return_post_insider_trading.py`) -/

/-- One hourly bar: the (possibly timezone-aware) index timestamp and the close. -/
structure HourBar where
  ts : PdTimestamp
  close : Rat
  deriving Repr, DecidableEq

/-- The momentum fields added by the hourly analyzer; elapsed hours are the
exact rational `total_seconds() / 3600`. -/
structure HourFields where
  ret : Option Rat
  realizedDate : Option Int
  hoursDiff : Option Rat
  deriving Repr, DecidableEq

/-- The per-row branch of the hourly `analyze_trade_momentum`: `trade_dt` is
already naive (normalized before the fetch); the realized timestamp is
normalized the same way before the subtraction. -/
def analyzeRowHour (trade_dt : Int) (closes : List HourBar) : HourFields :=
  match closes with
  | [] => { ret := none, realizedDate := none, hoursDiff := none }
  | c :: cs =>
      let last := (c :: cs).getLast (List.cons_ne_nil c cs)
      let realized_ts := tz_normalize last.ts
      { ret := some ((last.close - c.close) / c.close)
        realizedDate := some realized_ts
        hoursDiff := some (((realized_ts - trade_dt : Int) : Rat) / 3600) }

/-- One output row of the hourly analyzer. -/
structure MomentumRowHour where
  base : TransactionRecord
  fields : HourFields
  deriving Repr, DecidableEq

/-- The close series used for one row of the hourly analyzer:
`yf.Ticker(tkr).history(start, end, interval="1h")["Close"]` with the window
end `trade_dt + pd.Timedelta(hours=hours_after)`; a raised exception is
converted by the `except` clause into an empty series. -/
def hourCloses (histFetch : String → Int → Int → Except String (List HourBar))
    (hours_after : Int) (ticker : String) (trade_dt : Int) : List HourBar :=
  match histFetch ticker trade_dt (trade_dt + hours_after * 3600) with
  | .ok h => h
  | .error _ => []

/-- The hourly `analyze_trade_momentum` loop: one result row is appended per
input row, with the trade timestamp normalized before the fetch. -/
def analyze_trade_momentum_hour (parseTs : Option String → PdTimestamp)
    (histFetch : String → Int → Int → Except String (List HourBar))
    (hours_after : Int) (df : List TransactionRecord) : List MomentumRowHour :=
  df.foldl
    (fun results row =>
      let trade_dt := tz_normalize (parseTs row.transactionDate)
      let closes := hourCloses histFetch hours_after row.ticker trade_dt
      results ++ [{ base := row, fields := analyzeRowHour trade_dt closes }])
    []

/-! ## Calendar dates

Epoch-day number of a proleptic Gregorian date (days since 1970-01-01),
so that the concrete examples can use real dates. -/

/-- Days from civil date to the 1970-01-01 epoch (standard civil-calendar
conversion). -/
def toEpochDay (y m d : Int) : Int :=
  let y := if m <= 2 then y - 1 else y
  let era : Int := (if y >= 0 then y else y - 399) / 400
  let yoe : Int := y - era * 400
  let mp : Int := (m + 9) % 12
  let doy : Int := (153 * mp + 2) / 5 + d - 1
  let doe : Int := yoe * 365 + yoe / 4 - yoe / 100 + doy
  era * 146097 + doe - 719468

/-! ## Ticker-universe sampling

`random.sample(pool, k)` raises `ValueError` when `k` exceeds the population
size; otherwise it returns `k` distinct elements of the pool. The random
choices are supplied by an oracle list of naturals: each step picks the
index `r % remaining` and removes the chosen element (sampling without
replacement); an exhausted oracle falls back to a prefix, which also
contains no duplicates. -/

/-- Draw `k` elements without replacement, indices driven by the oracle. -/
def samplePick : Nat → List Nat → List String → List String
  | 0, _, _ => []
  | Nat.succ n, [], pool => pool.take (n + 1)
  | Nat.succ n, r :: rs, pool =>
      let i := r % pool.length
      pool.getD i "" :: samplePick n rs (pool.eraseIdx i)

/-- Python `random.sample(pool, k)`: `ValueError` when `k` exceeds the population. -/
def pyRandomSample (pool : List String) (k : Nat) (rand : List Nat) :
    Except PyExc (List String) :=
  if pool.length < k then
    .error (.valueError "Sample larger than population or is negative")
  else
    .ok (samplePick k rand pool)

/-- Python `list(dict.fromkeys(l))`: deduplicate keeping the first occurrence of
each element, preserving order. -/
def dedupFirstAux (seen : List String) : List String → List String
  | [] => []
  | x :: xs =>
      if x ∈ seen then dedupFirstAux seen xs
      else x :: dedupFirstAux (x :: seen) xs

/-- Python `list(dict.fromkeys(l))` with an empty starting set. -/
def dedupFirst (l : List String) : List String :=
  dedupFirstAux [] l

/-- The `default_universe` of `get_random_mega_caps`. -/
def megaCapUniverse : List String :=
  ["AAPL", "MSFT", "AMZN", "GOOGL", "BRK.B", "NVDA", "META", "TSLA", "JPM", "V",
   "UNH", "HD", "PG", "MA", "DIS", "NFLX", "PFE", "BAC", "VZ", "KO",
   "NKE", "CRM", "ORCL", "IBM", "WMT", "COST", "ADBE", "CSCO", "XOM", "CVX",
   "PEP", "ABT", "TMO", "MDT", "ACN", "LLY", "TXN", "NEE", "AVGO", "SAP"]

/-- The `default_universe` of `get_random_small_caps`. -/
def smallCapUniverse : List String :=
  ["AAXN", "CZR", "CRMT", "GLBE", "HZN", "IDEX", "LLEX", "MNST", "NWSA", "OTEX",
   "PNRG", "QDEL", "RGEN", "SAIC", "TALO", "UBSI", "VCRA", "WOR", "XYL", "ZION"]

/-- The listed subset of the deduplicated mega-cap universe, as computed inside
`get_random_mega_caps` (the external `is_listed` probe is a parameter). -/
def listedMegaCaps (isListed : String → Bool) : List String :=
  (dedupFirst megaCapUniverse).filter isListed

/-- The `get_random_mega_caps` function of `deep_dive_into_return_post_insider_trade.py`:
deduplicate the universe, keep the listed tickers, return them all when fewer
than `sample_size`, otherwise draw `sample_size` of them without replacement. -/
def get_random_mega_caps (isListed : String → Bool) (sample_size : Nat) (rand : List Nat) :
    Except PyExc (List String) :=
  let listed := listedMegaCaps isListed
  if listed.length < sample_size then .ok listed
  else pyRandomSample listed sample_size rand

/-- The `get_random_small_caps` function of `return_post_insider_trading.py`: a bare
`random.sample` over the fixed pool, with no listed filter and no size guard. -/
def get_random_small_caps (sample_size : Nat) (rand : List Nat) :
    Except PyExc (List String) :=
  pyRandomSample smallCapUniverse sample_size rand

/-! ## Sample inputs for concrete evaluations -/

/-- A concrete raw transaction with code "P". -/
def sampleTx : RawTransaction :=
  { securityTitle := some "Common Stock"
    transactionDate := some "2024-01-02"
    coding := some ⟨some "P", some false⟩
    amounts := some ⟨some 100, some 10⟩
    postTransactionAmounts := some ⟨some 1100⟩ }

/-- A concrete filing group holding `sampleTx` in its non-derivative table. -/
def sampleGroup : FilingGroup :=
  { documentType := some "4"
    footnotes := none
    remarks := none
    issuer := some ⟨some "AAPL"⟩
    reportingOwner := none
    nonDerivativeTable := some ⟨some [sampleTx]⟩
    derivativeTable := none }

/-- A filing group with every optional field absent. -/
def emptyGroup : FilingGroup :=
  { documentType := none, footnotes := none, remarks := none, issuer := none
    reportingOwner := none, nonDerivativeTable := none, derivativeTable := none }

/-- A raw transaction with every optional field absent. -/
def emptyTx : RawTransaction :=
  { securityTitle := none, transactionDate := none, coding := none
    amounts := none, postTransactionAmounts := none }

/-- A concrete extracted record. -/
def sampleRecord : TransactionRecord :=
  { ticker := "AAXN"
    transactionDate := some "2024-01-02T10:00:00-05:00"
    transactionCode := some "P"
    transactionDesc := "Purchase"
    shares := some 100
    pricePerShare := some 10
    officerTitle := none }

/-! ## General lemmas about the accumulator loops -/

/-- A fold that appends one image per element grows the accumulator by the
mapped list. -/
theorem foldl_concat_eq_append {α β : Type} (f : α → β) (l : List α) (acc : List β) :
    l.foldl (fun r x => r ++ [f x]) acc = acc ++ l.map f := by
  induction l generalizing acc with
  | nil => simp
  | cons x xs ih => simp [ih]

/-- The simple extractor loop flattens group by group. -/
theorem fetchRowsLoop_eq_flatMap (q : String) (gs : List FilingGroup) :
    fetchRowsLoop q gs = gs.flatMap (groupRows q) := by
  suffices h : ∀ acc : List TransactionRecord,
      List.foldl
        (fun rows g =>
          let symbol := resolveSymbol g q
          let officer := officerTitleOf g
          (tableTxs g.derivativeTable).foldl
            (fun rows tx => rows ++ [recordOfTx symbol officer tx])
            ((tableTxs g.nonDerivativeTable).foldl
              (fun rows tx => rows ++ [recordOfTx symbol officer tx]) rows))
        acc gs = acc ++ gs.flatMap (groupRows q) by
    simpa [fetchRowsLoop] using h []
  induction gs with
  | nil => intro acc; simp
  | cons g gs ih =>
      intro acc
      simp only [List.foldl_cons, List.flatMap_cons]
      rw [foldl_concat_eq_append, foldl_concat_eq_append, ih]
      simp [groupRows, List.append_assoc]

/-- The enhanced extractor loop flattens group by group. -/
theorem extractRecordsLoop_eq_flatMap (gs : List FilingGroup) :
    extractRecordsLoop gs = gs.flatMap groupRecords := by
  suffices h : ∀ acc : List EnhancedRecord,
      List.foldl
        (fun records g =>
          (tableTxs g.derivativeTable).foldl
            (fun records tx => records ++ [extract g tx "derivative"])
            ((tableTxs g.nonDerivativeTable).foldl
              (fun records tx => records ++ [extract g tx "nonDerivative"]) records))
        acc gs = acc ++ gs.flatMap groupRecords by
    simpa [extractRecordsLoop] using h []
  induction gs with
  | nil => intro acc; simp
  | cons g gs ih =>
      intro acc
      simp only [List.foldl_cons, List.flatMap_cons]
      rw [foldl_concat_eq_append, foldl_concat_eq_append, ih]
      simp [groupRecords, List.append_assoc]

/-- C1: for every parsed filing-search response, each extractor's output
length is the sum over filing groups of the two sub-table transaction counts,
and the output is exactly the concatenation, in response order, of each
group's non-derivative records followed by its derivative records, each in
server order. -/
theorem extractor_length_and_order (q : String) (gs : List FilingGroup) :
    (fetchRowsLoop q gs).length
        = (gs.map (fun g =>
            (tableTxs g.nonDerivativeTable).length + (tableTxs g.derivativeTable).length)).sum
      ∧ fetchRowsLoop q gs = gs.flatMap (fun g =>
          (tableTxs g.nonDerivativeTable).map (recordOfTx (resolveSymbol g q) (officerTitleOf g))
            ++ (tableTxs g.derivativeTable).map (recordOfTx (resolveSymbol g q) (officerTitleOf g)))
      ∧ (extractRecordsLoop gs).length
        = (gs.map (fun g =>
            (tableTxs g.nonDerivativeTable).length + (tableTxs g.derivativeTable).length)).sum
      ∧ extractRecordsLoop gs = gs.flatMap (fun g =>
          (tableTxs g.nonDerivativeTable).map (fun tx => extract g tx "nonDerivative")
            ++ (tableTxs g.derivativeTable).map (fun tx => extract g tx "derivative")) := by
  have hrows : groupRows q = fun g =>
      (tableTxs g.nonDerivativeTable).map (recordOfTx (resolveSymbol g q) (officerTitleOf g))
        ++ (tableTxs g.derivativeTable).map (recordOfTx (resolveSymbol g q) (officerTitleOf g)) := by
    funext g; simp [groupRows]
  have hrecs : groupRecords = fun g =>
      (tableTxs g.nonDerivativeTable).map (fun tx => extract g tx "nonDerivative")
        ++ (tableTxs g.derivativeTable).map (fun tx => extract g tx "derivative") := by
    funext g; simp [groupRecords]
  refine ⟨?_, ?_, ?_, ?_⟩
  · rw [fetchRowsLoop_eq_flatMap, List.length_flatMap, hrows]
    simp [Function.comp_def]
  · rw [fetchRowsLoop_eq_flatMap, hrows]
  · rw [extractRecordsLoop_eq_flatMap, List.length_flatMap, hrecs]
    simp [Function.comp_def]
  · rw [extractRecordsLoop_eq_flatMap, hrecs]

/-- C2: for every record whose close sequence is non-empty, both analyzer
variants set return = (last close − first close) / first close, the realized
timestamp to the last observation's timestamp, and elapsed time to realized
minus transaction timestamp in the configured unit: whole days for the daily
variant, fractional hours (seconds / 3600) for the hourly one. -/
theorem momentum_nonempty_fields (tradeDate : Int) (c : PriceBar) (cs : List PriceBar)
    (trade_ts : Int) (b : HourBar) (bs : List HourBar) :
    analyzeRowDay tradeDate (c :: cs) =
        { ret := some ((((c :: cs).getLast (List.cons_ne_nil c cs)).close - c.close) / c.close)
          realizedDate := some ((c :: cs).getLast (List.cons_ne_nil c cs)).date
          daysDiff := some (((c :: cs).getLast (List.cons_ne_nil c cs)).date - tradeDate) }
      ∧ analyzeRowHour trade_ts (b :: bs) =
        { ret := some ((((b :: bs).getLast (List.cons_ne_nil b bs)).close - b.close) / b.close)
          realizedDate := some (tz_normalize ((b :: bs).getLast (List.cons_ne_nil b bs)).ts)
          hoursDiff := some (((tz_normalize ((b :: bs).getLast (List.cons_ne_nil b bs)).ts
                                - trade_ts : Int) : Rat) / 3600) } :=
  ⟨rfl, rfl⟩

/-- Witness for C2: the specification's example. Closes 100.0 on 2024-01-02
and 110.0 on 2024-01-15 with transaction date 2024-01-02 give return 0.10,
realized date 2024-01-15, and 13 elapsed days; an hourly example with an
aware bar 5400 seconds after a naive trade instant gives 1.5 elapsed hours. -/
theorem momentum_nonempty_fields_witness :
    analyzeRowDay (toEpochDay 2024 1 2)
        [⟨toEpochDay 2024 1 2, 100⟩, ⟨toEpochDay 2024 1 15, 110⟩]
      = { ret := some (1 / 10), realizedDate := some (toEpochDay 2024 1 15),
          daysDiff := some 13 }
    ∧ analyzeRowHour 0 [⟨⟨5400, none⟩, 200⟩]
      = { ret := some 0, realizedDate := some 5400, hoursDiff := some (3 / 2) } := by
  have h := momentum_nonempty_fields (toEpochDay 2024 1 2)
    (⟨toEpochDay 2024 1 2, 100⟩ : PriceBar) [⟨toEpochDay 2024 1 15, 110⟩]
    0 (⟨⟨5400, none⟩, 200⟩ : HourBar) []
  rw [h.1, h.2]
  have hlast : ([⟨toEpochDay 2024 1 2, 100⟩, ⟨toEpochDay 2024 1 15, 110⟩] : List PriceBar).getLast
      (List.cons_ne_nil (⟨toEpochDay 2024 1 2, 100⟩ : PriceBar) [⟨toEpochDay 2024 1 15, 110⟩])
      = ⟨toEpochDay 2024 1 15, 110⟩ := rfl
  have hlastH : ([⟨⟨5400, none⟩, 200⟩] : List HourBar).getLast
      (List.cons_ne_nil (⟨⟨5400, none⟩, 200⟩ : HourBar) []) = ⟨⟨5400, none⟩, 200⟩ := rfl
  rw [hlast, hlastH]
  have h13 : toEpochDay 2024 1 15 - toEpochDay 2024 1 2 = (13 : Int) := by decide
  constructor
  · norm_num [h13]
  · norm_num [tz_normalize]

/-- C4: each analyzer variant emits exactly one result per input record, in
input order, with the input record embedded unchanged; a record whose close
series is empty (including a per-ticker fetch failure, converted to an empty
series) gets the missing-value sentinel in all three momentum fields, and the
rest of the batch is unaffected. -/
theorem momentum_batch_total_in_order (p : Option String → Int)
    (f : String → Int → Int → Except String (List PriceBar)) (d : Int)
    (pH : Option String → PdTimestamp)
    (fH : String → Int → Int → Except String (List HourBar)) (hrs : Int)
    (df : List TransactionRecord) :
    analyze_trade_momentum_day p f d df
        = df.map (fun row =>
            { base := row
              fields := analyzeRowDay (p row.transactionDate)
                          (dayCloses f d row.ticker (p row.transactionDate)) })
      ∧ (analyze_trade_momentum_day p f d df).map MomentumRowDay.base = df
      ∧ analyze_trade_momentum_hour pH fH hrs df
        = df.map (fun row =>
            { base := row
              fields := analyzeRowHour (tz_normalize (pH row.transactionDate))
                          (hourCloses fH hrs row.ticker (tz_normalize (pH row.transactionDate))) })
      ∧ (analyze_trade_momentum_hour pH fH hrs df).map MomentumRowHour.base = df
      ∧ (∀ t : Int, analyzeRowDay t [] = { ret := none, realizedDate := none, daysDiff := none })
      ∧ (∀ t : Int, analyzeRowHour t [] = { ret := none, realizedDate := none, hoursDiff := none })
      ∧ (∀ ticker t, f ticker t (t + d) = .error "exception" →
          dayCloses f d ticker t = []) := by
  have hday : analyze_trade_momentum_day p f d df
      = df.map (fun row =>
          { base := row
            fields := analyzeRowDay (p row.transactionDate)
                        (dayCloses f d row.ticker (p row.transactionDate)) }) := by
    simpa [analyze_trade_momentum_day]
      using foldl_concat_eq_append (fun row : TransactionRecord =>
        ({ base := row
           fields := analyzeRowDay (p row.transactionDate)
                       (dayCloses f d row.ticker (p row.transactionDate)) } : MomentumRowDay)) df []
  have hhour : analyze_trade_momentum_hour pH fH hrs df
      = df.map (fun row =>
          { base := row
            fields := analyzeRowHour (tz_normalize (pH row.transactionDate))
                        (hourCloses fH hrs row.ticker (tz_normalize (pH row.transactionDate))) }) := by
    simpa [analyze_trade_momentum_hour]
      using foldl_concat_eq_append (fun row : TransactionRecord =>
        ({ base := row
           fields := analyzeRowHour (tz_normalize (pH row.transactionDate))
                       (hourCloses fH hrs row.ticker (tz_normalize (pH row.transactionDate))) } : MomentumRowHour)) df []
  refine ⟨hday, ?_, hhour, ?_, fun _ => rfl, fun _ => rfl, fun ticker t hf => ?_⟩
  · rw [hday]; simp [List.map_map, Function.comp_def]
  · rw [hhour]; simp [List.map_map, Function.comp_def]
  · simp [dayCloses, hf]

/-- C10: a single close observation takes the available-data branch of the
daily analyzer: return 0 (first and last close coincide), realized date equal
to that observation's date, elapsed days equal to that date minus the
transaction date. (The nonzero-close hypothesis keeps the rational embedding
aligned with the source's floating-point division.) -/
theorem single_close_available_branch (tradeDate d : Int) (c : Rat) (hc : c ≠ 0) :
    analyzeRowDay tradeDate [⟨d, c⟩] =
      { ret := some 0, realizedDate := some d, daysDiff := some (d - tradeDate) } := by
  simp [analyzeRowDay, sub_self, zero_div]

/-- Witness for C10: one close of 250 on 2024-01-09 against a 2024-01-02
transaction yields return 0, realized date 2024-01-09, and 7 elapsed days. -/
theorem single_close_available_branch_witness :
    (250 : Rat) ≠ 0
      ∧ analyzeRowDay (toEpochDay 2024 1 2) [⟨toEpochDay 2024 1 9, 250⟩] =
          { ret := some 0, realizedDate := some (toEpochDay 2024 1 9), daysDiff := some 7 } := by
  refine ⟨by norm_num, ?_⟩
  rw [single_close_available_branch (toEpochDay 2024 1 2) (toEpochDay 2024 1 9) 250 (by norm_num)]
  decide

/-- C3 (code bug): on a transport error the fetch wrappers do not return an
empty result — `fetch_insider_trades` raises `UnboundLocalError` from its own
handler (the handler reads the never-assigned `resp`), and
`fetch_insider_trades_enhanced` lets the network exception propagate because
`requests.post` sits outside its `try`. Only the non-2xx path yields the
documented empty result. -/
theorem transport_error_propagates :
    fetch_insider_trades "issuer.tradingSymbol:AAPL" (.transportError "Connection refused")
        = .error (.nameError
            "cannot access local variable 'resp' where it is not associated with a value")
      ∧ fetch_insider_trades_enhanced "issuer.tradingSymbol:TSLA"
          (.transportError "Connection refused")
        = .error (.connectionError "Connection refused")
      ∧ fetch_insider_trades "issuer.tradingSymbol:AAPL" (.httpError 403 "Forbidden") = .ok []
      ∧ fetch_insider_trades_enhanced "issuer.tradingSymbol:TSLA" (.httpError 403 "Forbidden")
        = .ok [] :=
  ⟨rfl, rfl, rfl, rfl⟩

/-- C5: absent sub-tables contribute zero records, and absent
coding/amounts/post-holdings clusters resolve every derived scalar to the
missing value `none`, never to a fabricated default, in both extractors. -/
theorem missing_fields_resolve_to_none (q : String) (g : FilingGroup) (tx : RawTransaction)
    (cat : String) (s : String) (o : Option String)
    (hnd : g.nonDerivativeTable = none) (hd : g.derivativeTable = none)
    (hc : tx.coding = none) (ha : tx.amounts = none) (hp : tx.postTransactionAmounts = none) :
    groupRows q g = []
      ∧ groupRecords g = []
      ∧ fetchRowsLoop q [g] = []
      ∧ extractRecordsLoop [g] = []
      ∧ (extract g tx cat).transactionCode = none
      ∧ (extract g tx cat).equitySwapInvolved = none
      ∧ (extract g tx cat).shares = none
      ∧ (extract g tx cat).pricePerShare = none
      ∧ (extract g tx cat).sharesOwnedFollowingTransaction = none
      ∧ (extract g tx cat).transactionDate = tx.transactionDate
      ∧ (recordOfTx s o tx).transactionCode = none
      ∧ (recordOfTx s o tx).shares = none
      ∧ (recordOfTx s o tx).pricePerShare = none := by
  refine ⟨by simp [groupRows, tableTxs, hnd, hd], by simp [groupRecords, tableTxs, hnd, hd],
    ?_, ?_, ?_, ?_, ?_, ?_, ?_, ?_, ?_, ?_, ?_⟩
  · rw [fetchRowsLoop_eq_flatMap]; simp [groupRows, tableTxs, hnd, hd]
  · rw [extractRecordsLoop_eq_flatMap]; simp [groupRecords, tableTxs, hnd, hd]
  all_goals simp [extract, recordOfTx, hc, ha, hp]

/-- Witness for C5: the all-absent filing group and transaction. -/
theorem missing_fields_resolve_to_none_witness :
    groupRows "q" emptyGroup = []
      ∧ groupRecords emptyGroup = []
      ∧ fetchRowsLoop "q" [emptyGroup] = []
      ∧ extractRecordsLoop [emptyGroup] = []
      ∧ (extract emptyGroup emptyTx "nonDerivative").transactionCode = none
      ∧ (extract emptyGroup emptyTx "nonDerivative").equitySwapInvolved = none
      ∧ (extract emptyGroup emptyTx "nonDerivative").shares = none
      ∧ (extract emptyGroup emptyTx "nonDerivative").pricePerShare = none
      ∧ (extract emptyGroup emptyTx "nonDerivative").sharesOwnedFollowingTransaction = none
      ∧ (extract emptyGroup emptyTx "nonDerivative").transactionDate = emptyTx.transactionDate
      ∧ (recordOfTx "AAPL" none emptyTx).transactionCode = none
      ∧ (recordOfTx "AAPL" none emptyTx).shares = none
      ∧ (recordOfTx "AAPL" none emptyTx).pricePerShare = none :=
  missing_fields_resolve_to_none "q" emptyGroup emptyTx "nonDerivative" "AAPL" none
    rfl rfl rfl rfl rfl

/-- C6 (code bug): with the credential environment variable unset, both
scripts proceed with the placeholder string "API_KEY" instead of halting —
`deep_dive_into_return_post_insider_trade.py` because `os.getenv`'s fallback
"API_KEY" is non-empty so `if not API_KEY` never fires, and
`api_test_expanded_list.py` because its guard compares against the unrelated
placeholder "YOUR_REAL_KEY_HERE". Only `return_post_insider_trading.py`
raises, and it does so unconditionally (it reads an empty variable name). -/
theorem placeholder_credential_not_fatal :
    deep_dive_startup (fun _ => none) = .ok "API_KEY"
      ∧ expanded_list_startup (fun _ => none) = .ok "API_KEY"
      ∧ return_post_startup (fun _ => none)
        = .error (.valueError
            "Please set your SEC_API_KEY environment variable to your real API key.")
      ∧ return_post_startup (fun n => if n = "API_KEY" then some "real-key-value" else none)
        = .error (.valueError
            "Please set your SEC_API_KEY environment variable to your real API key.") := by
  refine ⟨rfl, ?_, rfl, rfl⟩
  simp [expanded_list_startup, os_getenv]

/-- C7: every record emitted by the simple extractor carries
`transactionDesc` equal to the fixed vocabulary's entry for its own
`transactionCode`, with "Unknown" for codes outside the vocabulary (and for
an absent code); "P" maps to "Purchase" and "Z" to "Unknown". -/
theorem desc_eq_vocab_lookup (q : String) (gs : List FilingGroup) (r : TransactionRecord)
    (hr : r ∈ fetchRowsLoop q gs) :
    r.transactionDesc = codeDesc r.transactionCode
      ∧ codeDesc (some "P") = "Purchase"
      ∧ codeDesc (some "Z") = "Unknown"
      ∧ codeDesc none = "Unknown" := by
  refine ⟨?_, by decide, by decide, rfl⟩
  rw [fetchRowsLoop_eq_flatMap] at hr
  simp only [List.mem_flatMap] at hr
  obtain ⟨g, -, hr⟩ := hr
  simp only [groupRows, List.mem_append, List.mem_map] at hr
  rcases hr with ⟨tx, -, rfl⟩ | ⟨tx, -, rfl⟩ <;> rfl

/-- Witness for C7: the record extracted from `sampleGroup`'s "P"-coded
transaction satisfies the vocabulary consistency property. -/
theorem desc_eq_vocab_lookup_witness :
    (recordOfTx "AAPL" none sampleTx
        ∈ fetchRowsLoop "issuer.tradingSymbol:AAPL" [sampleGroup])
      ∧ (recordOfTx "AAPL" none sampleTx).transactionDesc
          = codeDesc (recordOfTx "AAPL" none sampleTx).transactionCode
      ∧ codeDesc (some "P") = "Purchase"
      ∧ codeDesc (some "Z") = "Unknown"
      ∧ codeDesc none = "Unknown" := by
  have hmem : recordOfTx "AAPL" none sampleTx
      ∈ fetchRowsLoop "issuer.tradingSymbol:AAPL" [sampleGroup] := by decide
  exact ⟨hmem, desc_eq_vocab_lookup "issuer.tradingSymbol:AAPL" [sampleGroup] _ hmem⟩

/-! ## Lemmas about the sampling model -/

/-- In-bounds `getD` is the indexed element. -/
theorem getD_eq_getElem (l : List String) (i : Nat) (h : i < l.length) :
    l.getD i "" = l[i] := by
  rw [List.getD_eq_getElem?_getD, List.getElem?_eq_getElem h]
  rfl

/-- The sample only draws pool elements. -/
theorem samplePick_subset : ∀ (k : Nat) (rand : List Nat) (pool : List String),
    k ≤ pool.length → ∀ x ∈ samplePick k rand pool, x ∈ pool := by
  intro k
  induction k with
  | zero => intro rand pool _ x hx; simp [samplePick] at hx
  | succ n ih =>
      intro rand pool hk x hx
      cases rand with
      | nil => exact (List.take_sublist _ _).subset (by simpa [samplePick] using hx)
      | cons r rs =>
          have hpos : 0 < pool.length := lt_of_lt_of_le (Nat.succ_pos n) hk
          have hi : r % pool.length < pool.length := Nat.mod_lt _ hpos
          have hlen : n ≤ (pool.eraseIdx (r % pool.length)).length := by
            rw [List.length_eraseIdx_of_lt hi]; omega
          simp only [samplePick, List.mem_cons] at hx
          rcases hx with rfl | hx
          · rw [getD_eq_getElem _ _ hi]; exact List.getElem_mem hi
          · exact (List.eraseIdx_sublist _ _).subset (ih rs _ hlen x hx)

/-- The sample has the requested size when the pool is large enough. -/
theorem samplePick_length : ∀ (k : Nat) (rand : List Nat) (pool : List String),
    k ≤ pool.length → (samplePick k rand pool).length = k := by
  intro k
  induction k with
  | zero => intro rand pool _; rfl
  | succ n ih =>
      intro rand pool hk
      cases rand with
      | nil => simp only [samplePick, List.length_take]; omega
      | cons r rs =>
          have hpos : 0 < pool.length := lt_of_lt_of_le (Nat.succ_pos n) hk
          have hi : r % pool.length < pool.length := Nat.mod_lt _ hpos
          have hlen : n ≤ (pool.eraseIdx (r % pool.length)).length := by
            rw [List.length_eraseIdx_of_lt hi]; omega
          simp only [samplePick, List.length_cons]
          rw [ih rs _ hlen]

/-- Removing the element at `i` removes the only occurrence of `l[i]` in a
duplicate-free list. -/
theorem getElem_not_mem_eraseIdx : ∀ (l : List String) (i : Nat) (h : i < l.length),
    l.Nodup → l[i] ∉ l.eraseIdx i := by
  intro l
  induction l with
  | nil => intro i h; simp at h
  | cons a as ih =>
      intro i h hnd
      obtain ⟨ha, hnd'⟩ := List.nodup_cons.mp hnd
      cases i with
      | zero => simpa using ha
      | succ j =>
          have hj : j < as.length := by simpa using h
          simp only [List.eraseIdx_cons_succ, List.getElem_cons_succ, List.mem_cons]
          push_neg
          exact ⟨fun hx => ha (hx ▸ List.getElem_mem hj), ih j hj hnd'⟩

/-- Sampling without replacement never repeats an element of a
duplicate-free pool. -/
theorem samplePick_nodup : ∀ (k : Nat) (rand : List Nat) (pool : List String),
    k ≤ pool.length → pool.Nodup → (samplePick k rand pool).Nodup := by
  intro k
  induction k with
  | zero => intro rand pool _ _; exact List.nodup_nil
  | succ n ih =>
      intro rand pool hk hnd
      cases rand with
      | nil => simpa [samplePick] using hnd.sublist (List.take_sublist (n + 1) pool)
      | cons r rs =>
          have hpos : 0 < pool.length := lt_of_lt_of_le (Nat.succ_pos n) hk
          have hi : r % pool.length < pool.length := Nat.mod_lt _ hpos
          have hlen : n ≤ (pool.eraseIdx (r % pool.length)).length := by
            rw [List.length_eraseIdx_of_lt hi]; omega
          have hnd' : (pool.eraseIdx (r % pool.length)).Nodup :=
            hnd.sublist (List.eraseIdx_sublist _ _)
          simp only [samplePick, List.nodup_cons]
          refine ⟨fun hmem => ?_, ih rs _ hlen hnd'⟩
          have hsub := samplePick_subset n rs _ hlen _ hmem
          rw [getD_eq_getElem _ _ hi] at hsub
          exact getElem_not_mem_eraseIdx pool _ hi hnd hsub

/-- The deduplicated mega-cap universe has no duplicates. -/
theorem dedupMega_nodup : (dedupFirst megaCapUniverse).Nodup := by decide

/-- The small-cap pool has no duplicates. -/
theorem smallCaps_nodup : smallCapUniverse.Nodup := by decide

/-- C8 counterexample: the small-cap sampler has no listed filter and no size
guard; requesting 21 tickers from its 20-element pool raises `ValueError`
instead of returning the pool. -/
theorem small_caps_oversample_raises :
    get_random_small_caps 21 []
      = .error (.valueError "Sample larger than population or is negative") := rfl

/-- C8 amended: the large-cap sampler draws without replacement from the
listed subset of its deduplicated pool, returns the whole listed subset when
it is smaller than the requested size, and never raises; the small-cap
sampler draws without replacement from its full pool (no listed filter) and
raises exactly when the requested size exceeds the pool size. -/
theorem sampling_listed_subset_props (isl : String → Bool) (k : Nat) (rand : List Nat) :
    (∃ l, get_random_mega_caps isl k rand = .ok l
        ∧ l.Nodup
        ∧ (∀ x ∈ l, x ∈ listedMegaCaps isl)
        ∧ ((listedMegaCaps isl).length < k → l = listedMegaCaps isl)
        ∧ (k ≤ (listedMegaCaps isl).length → l.length = k))
      ∧ (smallCapUniverse.length < k →
          get_random_small_caps k rand
            = .error (.valueError "Sample larger than population or is negative"))
      ∧ (k ≤ smallCapUniverse.length →
          ∃ l, get_random_small_caps k rand = .ok l
            ∧ l.Nodup ∧ (∀ x ∈ l, x ∈ smallCapUniverse) ∧ l.length = k) := by
  have hLnd : (listedMegaCaps isl).Nodup := dedupMega_nodup.filter _
  refine ⟨?_, fun hk => ?_, fun hk => ?_⟩
  · by_cases hlt : (listedMegaCaps isl).length < k
    · refine ⟨listedMegaCaps isl, ?_, hLnd, fun x hx => hx, fun _ => rfl,
        fun hk => absurd hlt (by omega)⟩
      simp [get_random_mega_caps, hlt]
    · have hle : k ≤ (listedMegaCaps isl).length := Nat.le_of_not_lt hlt
      refine ⟨samplePick k rand (listedMegaCaps isl), ?_,
        samplePick_nodup k rand _ hle hLnd, samplePick_subset k rand _ hle,
        fun h => absurd h hlt, fun _ => samplePick_length k rand _ hle⟩
      simp [get_random_mega_caps, pyRandomSample, hlt]
  · simp [get_random_small_caps, pyRandomSample, hk]
  · refine ⟨samplePick k rand smallCapUniverse, ?_,
      samplePick_nodup k rand _ hk smallCaps_nodup,
      samplePick_subset k rand _ hk, samplePick_length k rand _ hk⟩
    simp [get_random_small_caps, pyRandomSample, Nat.not_lt.mpr hk]

/-- Witness for C8's amended claim: with only "AAPL" and "MSFT" listed and a
requested size of 20, the large-cap sampler returns exactly the listed
subset. -/
theorem sampling_listed_subset_props_witness :
    ∃ l, get_random_mega_caps (fun t => t == "AAPL" || t == "MSFT") 20 [] = .ok l
      ∧ l = listedMegaCaps (fun t => t == "AAPL" || t == "MSFT") := by
  obtain ⟨⟨l, hok, -, -, hfew, -⟩, -, -⟩ :=
    sampling_listed_subset_props (fun t => t == "AAPL" || t == "MSFT") 20 []
  exact ⟨l, hok, hfew (by decide)⟩

/-- C9 counterexample: the hourly analyzer normalizes an aware transaction
timestamp by converting it to UTC, not by discarding the offset. For a trade
stamped wall-clock 36000 s at offset −05:00 and a single naive bar at
54000 s, the code computes 0 elapsed hours (the UTC instant is 54000 s),
whereas discarding the offset would leave wall-clock 36000 s and give 5
elapsed hours. -/
theorem tz_offset_not_discarded :
    (analyze_trade_momentum_hour (fun _ => ⟨36000, some (-300)⟩)
        (fun _ _ _ => .ok [⟨⟨54000, none⟩, 100⟩]) 48 [sampleRecord]).map
          (fun r => r.fields.hoursDiff)
      = [some 0]
  ∧ (((54000 : Int) - specDiscardOffset ⟨36000, some (-300)⟩ : Int) : Rat) / 3600 = 5
  ∧ some (0 : Rat) ≠ some (5 : Rat) := by
  refine ⟨?_, by norm_num [specDiscardOffset], by norm_num⟩
  norm_num [analyze_trade_momentum_hour, hourCloses, analyzeRowHour, tz_normalize]

/-- C9 amended: `tz_convert(None).tz_localize(None)` converts an aware
timestamp to its UTC wall clock (subtracting the offset) and leaves a naive
timestamp unchanged, so the naive instant the analyzer compares against the
collaborator's timestamps is the UTC instant, not the original wall clock,
whenever the offset is nonzero. -/
theorem tz_normalize_converts_to_utc (w m : Int) (t : PdTimestamp)
    (ht : t.offsetMinutes = none) (hm : m ≠ 0)
    (pH : Option String → PdTimestamp)
    (fH : String → Int → Int → Except String (List HourBar)) (hrs : Int)
    (r : TransactionRecord) :
    tz_normalize ⟨w, some m⟩ = w - m * 60
      ∧ tz_normalize t = t.wall
      ∧ tz_normalize ⟨w, some m⟩ ≠ specDiscardOffset ⟨w, some m⟩
      ∧ analyze_trade_momentum_hour pH fH hrs [r]
        = [{ base := r
             fields := analyzeRowHour (tz_normalize (pH r.transactionDate))
                         (hourCloses fH hrs r.ticker (tz_normalize (pH r.transactionDate))) }] := by
  refine ⟨rfl, ?_, ?_, ?_⟩
  · cases t with
    | mk wall off => simp only at ht; simp [tz_normalize, ht]
  · simp only [tz_normalize, specDiscardOffset]
    omega
  · simp [analyze_trade_momentum_hour]

/-- Witness for C9's amended claim at offset −05:00. -/
theorem tz_normalize_converts_to_utc_witness :
    (⟨36000, none⟩ : PdTimestamp).offsetMinutes = none ∧ (-300 : Int) ≠ 0
      ∧ tz_normalize ⟨36000, some (-300)⟩ = 36000 - (-300) * 60
      ∧ tz_normalize ⟨36000, some (-300)⟩ = 54000 := by
  refine ⟨rfl, by norm_num,
    (tz_normalize_converts_to_utc 36000 (-300) ⟨36000, none⟩ rfl (by norm_num)
      (fun _ => ⟨0, none⟩) (fun _ _ _ => .ok []) 48 sampleRecord).1,
    by norm_num [tz_normalize]⟩

end InsiderTrading
